import Mathlib

/-!
Verification of the `openjpeg/utils.py` binding layer: format sniffing,
stream normalization, and the parameter-driven reshape pipeline around the
external `_openjpeg` codec.  Machine bytes are modelled as `Nat`, streams as
byte lists with an explicit position, and fallible Python paths as `Except`.
-/

namespace OpenJPEG

/-- A seekable, readable byte stream: the embedding of a `BytesIO` or a
file-like object, as the byte contents together with the current position. -/
structure ByteStream where
  data : List Nat
  pos : Nat
deriving DecidableEq

/-- `stream.read(n)`: return up to `n` bytes from the current position and
advance the position by the number of bytes actually read. -/
def ByteStream.read (s : ByteStream) (n : Nat) : List Nat × ByteStream :=
  let bytes := (s.data.drop s.pos).take n
  (bytes, ⟨s.data, s.pos + bytes.length⟩)

/-- `stream.seek(0)`, the only seek this layer performs. -/
def ByteStream.seek0 (s : ByteStream) : ByteStream := ⟨s.data, 0⟩

/-- The 4-byte JPEG 2000 codestream signature `FF 4F FF 51`. -/
def sigJ2K : List Nat := [0xFF, 0x4F, 0xFF, 0x51]

/-- The 4-byte JP2 signature `0D 0A 87 0A`. -/
def sigJP2 : List Nat := [0x0D, 0x0A, 0x87, 0x0A]

/-- The 12-byte JP2 RFC3745 signature. -/
def sigJP2RFC : List Nat :=
  [0x00, 0x00, 0x00, 0x0C, 0x6A, 0x50, 0x20, 0x20, 0x0D, 0x0A, 0x87, 0x0A]

/-- The `magic_numbers` dict of `_get_format`, as an association list keyed by
the exact signature bytes. -/
def magic_numbers : List (List Nat × Nat) := [(sigJ2K, 0), (sigJP2, 2), (sigJP2RFC, 2)]

/-- Embedding of `_get_format`: read 20 bytes, seek back to the start, look the
first 4 bytes of the data up in the dict, then the first 12 bytes; `none`
models the `ValueError` for an unrecognized format.  The updated stream is
returned alongside so that position effects are visible. -/
def _get_format (s : ByteStream) : Option Nat × ByteStream :=
  let r := s.read 20
  let s2 := r.2.seek0
  match magic_numbers.lookup (r.1.take 4) with
  | some fmt => (some fmt, s2)
  | none =>
    match magic_numbers.lookup (r.1.take 12) with
    | some fmt => (some fmt, s2)
    | none => (none, s2)

/-- The JPEG 2000 image parameters reported by the codec
(`get_parameters`' result dict). -/
structure Params where
  columns : Nat
  rows : Nat
  colourspace : String
  nr_components : Nat
  precision : Nat
  is_signed : Bool
deriving DecidableEq

/-- Modelled from the spec: the external native codec (the `_openjpeg`
extension module, which is not under `src/`) is "invoked with
`(stream, FormatCode)` and must return either raw decoded bytes or a
ParameterRecord; its internal algorithm is not specified here".  Calls are
"idempotent given the same stream contents and position", and both entry
points "require the stream to be re-seeked to position 0 before invocation" —
so we model them as arbitrary deterministic functions of the full stream
state — the contents and the current position — and the format code; the spec
pins their behaviour down only when the position is 0. -/
structure Codec where
  decodeBytes : List Nat → Nat → Nat → List Nat
  paramsOf : List Nat → Nat → Nat → Params

/-- Which codec entry point an invocation went to. -/
inductive CallKind
  | decodeRaw
  | readParameters
deriving DecidableEq

/-- One invocation of the external codec: the entry point, the format code
passed, and the stream position at the moment of the call. -/
structure CallEvent where
  kind : CallKind
  fmt : Nat
  pos : Nat
deriving DecidableEq

/-- Modelled from the spec: invoking the codec's raw decode reads the stream,
leaving the position at the end of the data (the spec requires callers to
present the stream at position 0 and nowhere says the codec restores the
position).  The invocation is recorded as a `CallEvent`. -/
def codecDecode (c : Codec) (s : ByteStream) (fmt : Nat) :
    List Nat × ByteStream × CallEvent :=
  (c.decodeBytes s.data s.pos fmt, ⟨s.data, s.data.length⟩,
   ⟨.decodeRaw, fmt, s.pos⟩)

/-- Modelled from the spec: invoking the codec's parameter reader, with the
same stream effect as `codecDecode`. -/
def codecParams (c : Codec) (s : ByteStream) (fmt : Nat) :
    Params × ByteStream × CallEvent :=
  (c.paramsOf s.data s.pos fmt, ⟨s.data, s.data.length⟩,
   ⟨.readParameters, fmt, s.pos⟩)

/-- The error taxonomy of the binding layer, under the spec's names; each
constructor notes the Python exception it embeds. -/
inductive Err
  | unsupportedStreamType -- TypeError: object lacks read/tell/seek
  | unrecognizedFormat -- ValueError raised by _get_format
  | invalidDtype -- TypeError from numpy: integer dtype name not understood
  | bufferSizeMismatch -- ValueError from numpy view (length not a multiple)
  | shapeMismatch -- ValueError from numpy reshape (element count mismatch)
deriving DecidableEq

/-- A caller-supplied stream-like object: its duck-typed capabilities and the
underlying stream (contents plus current position). -/
structure StreamObj where
  hasRead : Bool
  hasTell : Bool
  hasSeek : Bool
  toStream : ByteStream
deriving DecidableEq

/-- The input accepted by `decode` and `get_parameters`: raw bytes or a
stream-like object. -/
inductive Input
  | bytes (b : List Nat)
  | obj (o : StreamObj)

/-- Stream normalization: `bytes`/`bytearray` input is wrapped in a fresh
`BytesIO` (position 0); any other object must expose `read`, `tell` and
`seek`, else `TypeError` (the spec's `UnsupportedStreamType`). -/
def normalize : Input → Except Err ByteStream
  | .bytes b => .ok ⟨b, 0⟩
  | .obj o =>
    if o.hasRead && o.hasTell && o.hasSeek then .ok o.toStream
    else .error .unsupportedStreamType

/-- `if j2k_format is None: j2k_format = _get_format(stream)`. -/
def resolve_format (j2k_format : Option Nat) (s : ByteStream) :
    Option Nat × ByteStream :=
  match j2k_format with
  | some f => (some f, s)
  | none => _get_format s

/-- The element type named by the `f"uint{8*bpp}"` / `f"int{8*bpp}"` dtype
strings: signedness and width in bits. -/
structure DType where
  signed : Bool
  bits : Nat
deriving DecidableEq

/-- numpy resolves an integer dtype name only for the widths 8, 16, 32 and 64
bits; names such as `"uint24"` raise `TypeError`. -/
def validDtype (d : DType) : Prop :=
  d.bits = 8 ∨ d.bits = 16 ∨ d.bits = 32 ∨ d.bits = 64

instance (d : DType) : Decidable (validDtype d) :=
  inferInstanceAs (Decidable (d.bits = 8 ∨ d.bits = 16 ∨ d.bits = 32 ∨ d.bits = 64))

/-- A numpy array as this layer sees it: dtype, shape and the underlying flat
byte buffer (views and reshapes never copy the buffer). -/
structure ImageArray where
  dtype : DType
  shape : List Nat
  bytes : List Nat
deriving DecidableEq

/-- The flat 1-D `np.uint8` array holding the raw decoded bytes. -/
def flatArr (raw : List Nat) : ImageArray := ⟨⟨false, 8⟩, [raw.length], raw⟩

/-- `arr.view(dtype)` on the flat 1-D uint8 array: fails if the dtype name is
not understood, or if the byte length is not a multiple of the new item size;
otherwise reinterprets the buffer without copying. -/
def npView (a : ImageArray) (d : DType) : Except Err ImageArray :=
  if validDtype d then
    if a.bytes.length % (d.bits / 8) = 0 then
      .ok ⟨d, [a.bytes.length / (d.bits / 8)], a.bytes⟩
    else .error .bufferSizeMismatch
  else .error .invalidDtype

/-- `arr.reshape(*shape)`: the element count must match the product of the
target shape exactly. -/
def npReshape (a : ImageArray) (shape : List Nat) : Except Err ImageArray :=
  if a.shape.prod = shape.prod then .ok ⟨a.dtype, shape, a.bytes⟩
  else .error .shapeMismatch

/-- The tail of `decode` (its reshape branch): compute `bpp =
ceil(precision/8)`, pick the dtype by signedness, view the buffer, compute the
target shape (`[rows, columns]`, with `nr_components` appended when greater
than 1), and reshape. -/
def reshapeStep (meta : Params) (arr : ImageArray) : Except Err ImageArray :=
  let bpp := (meta.precision + 7) / 8
  let dt : DType := ⟨meta.is_signed, 8 * bpp⟩
  match npView arr dt with
  | .error e => .error e
  | .ok arr2 =>
    let shape :=
      if meta.nr_components > 1 then [meta.rows, meta.columns, meta.nr_components]
      else [meta.rows, meta.columns]
    npReshape arr2 shape

/-- Embedding of `get_parameters`: normalize the input, resolve the format
(sniffing when none was given), then call the codec's parameter reader.  The
list of codec invocations made is returned alongside. -/
def get_parameters (c : Codec) (input : Input) (j2k_format : Option Nat) :
    Except Err Params × List CallEvent :=
  match normalize input with
  | .error e => (.error e, [])
  | .ok stream =>
    match resolve_format j2k_format stream with
    | (none, _) => (.error .unrecognizedFormat, [])
    | (some fmt, s1) =>
      let r := codecParams c s1 fmt
      (.ok r.1, [r.2.2])

/-- Embedding of `decode`: normalize the input, resolve the format, call the
codec's raw decode; with `reshape=False` return the flat uint8 array as-is,
otherwise read the parameters through `get_parameters` (passing the explicit
format, so no new sniff and no seek) and view/reshape the buffer.  The list of
codec invocations made is returned alongside. -/
def decode (c : Codec) (input : Input) (j2k_format : Option Nat)
    (reshape : Bool) : Except Err ImageArray × List CallEvent :=
  match normalize input with
  | .error e => (.error e, [])
  | .ok stream =>
    match resolve_format j2k_format stream with
    | (none, _) => (.error .unrecognizedFormat, [])
    | (some fmt, s1) =>
      let r := codecDecode c s1 fmt
      let arr := flatArr r.1
      if reshape then
        match get_parameters c (.obj ⟨true, true, true, r.2.1⟩) (some fmt) with
        | (.error e, evs) => (.error e, r.2.2 :: evs)
        | (.ok meta, evs) =>
          match reshapeStep meta arr with
          | .error e => (.error e, r.2.2 :: evs)
          | .ok arr2 => (.ok arr2, r.2.2 :: evs)
      else (.ok arr, [r.2.2])

/-- The numeric value of a decimal digit character, `none` otherwise
(the digits-only fragment of Python `int`). -/
def digitVal (c : Char) : Option Nat :=
  if c.isDigit then some (c.toNat - 48) else none

/-- Python `int(field)` for the decimal-digit fields a version string
consists of. -/
def parseNat (cs : List Char) : Option Nat :=
  if cs.isEmpty then none
  else
    cs.foldl
      (fun acc c =>
        match acc, digitVal c with
        | some a, some d => some (10 * a + d)
        | _, _ => none)
      (some 0)

/-- `str.split(sep)` for a one-character separator, over character lists
(Python semantics: splitting the empty string yields one empty field, and
separators at either end produce empty fields). -/
def splitOnChar (sep : Char) : List Char → List (List Char)
  | [] => [[]]
  | c :: rest =>
    if c = sep then [] :: splitOnChar sep rest
    else
      match splitOnChar sep rest with
      | [] => [[c]]
      | f :: fs => (c :: f) :: fs

/-- `tuple(int(ii) for ii in version)`: parse every field or fail. -/
def parseFields : List (List Char) → Option (List Nat)
  | [] => some []
  | f :: fs =>
    match parseNat f, parseFields fs with
    | some x, some xs => some (x :: xs)
    | _, _ => none

/-- Embedding of `get_openjpeg_version`, applied to the ASCII version string
the external codec reports: split on `"."` and convert every field with
`int`; the result tuple has one integer per field. -/
def get_openjpeg_version (version : List Char) : Option (List Nat) :=
  parseFields (splitOnChar '.' version)

/-- The claim's short (4-byte) signature table, as written in the spec. -/
def shortSig (k : List Nat) : Option Nat :=
  if k = sigJ2K then some 0 else if k = sigJP2 then some 2 else none

/-- The claim's long (12-byte) signature table, as written in the spec. -/
def longSig (k : List Nat) : Option Nat :=
  if k = sigJP2RFC then some 2 else none

/-- A concrete codec behaviour used to evaluate the pipeline on closed inputs:
a 2-row, 3-column, single-component, 8-bit unsigned image, reported
identically from every stream position. -/
def sampleCodec : Codec :=
  ⟨fun _ _ _ => [1, 2, 3, 4, 5, 6],
   fun _ _ _ => ⟨3, 2, "monochrome", 1, 8, false⟩⟩

/-- A parameter record with `precision = 20` (so `bpp = 3` and the dtype
string is `"uint24"`, which numpy rejects). -/
def metaP20 : Params := ⟨2, 1, "monochrome", 1, 20, false⟩

/-- A parameter record with `nr_components = 0`. -/
def metaN0 : Params := ⟨2, 1, "monochrome", 0, 8, false⟩

/-- A parameter record for a 1-row, 2-column, 16-bit unsigned image. -/
def metaP16 : Params := ⟨2, 1, "monochrome", 1, 16, false⟩

/-- A concrete codec that reports the `nr_components = 0` record `metaN0`
(from every position) and a 2-byte buffer. -/
def zeroCompCodec : Codec := ⟨fun _ _ _ => [7, 9], fun _ _ _ => metaN0⟩

/-- A concrete position-sensitive codec, allowed by the spec (which fixes the
codec's behaviour only at position 0): its parameter reader reports an 8-bit
image when invoked at position 0 and a 16-bit one from anywhere else. -/
def posCodec : Codec :=
  ⟨fun _ _ _ => [1],
   fun _ pos _ =>
     if pos = 0 then ⟨1, 1, "monochrome", 1, 8, false⟩
     else ⟨1, 1, "monochrome", 1, 16, false⟩⟩

lemma lookup_magic (k : List Nat) :
    magic_numbers.lookup k =
      if k = sigJ2K then some 0
      else if k = sigJP2 then some 2
      else if k = sigJP2RFC then some 2
      else none := by
  have d1 : sigJP2 ≠ sigJ2K := by decide
  have d2 : sigJP2RFC ≠ sigJ2K := by decide
  have d3 : sigJP2RFC ≠ sigJP2 := by decide
  simp only [magic_numbers, List.lookup]
  cases hb1 : (k == sigJ2K)
  · cases hb2 : (k == sigJP2)
    · cases hb3 : (k == sigJP2RFC)
      · simp [ne_of_beq_false hb1, ne_of_beq_false hb2, ne_of_beq_false hb3]
      · simp [ne_of_beq_false hb1, ne_of_beq_false hb2, eq_of_beq hb3, d2, d3]
    · simp [ne_of_beq_false hb1, eq_of_beq hb2, d1]
  · simp [eq_of_beq hb1]

lemma take_four_ne_RFC (l : List Nat) : l.take 4 ≠ sigJP2RFC := by
  intro h
  have hl := congrArg List.length h
  simp [sigJP2RFC] at hl
  omega

lemma take_twelve_J2K {l : List Nat} (h : l.take 12 = sigJ2K) : l.take 4 = sigJ2K := by
  have h2 := congrArg (List.take 4) h
  simpa [List.take_take, sigJ2K] using h2

lemma take_twelve_JP2 {l : List Nat} (h : l.take 12 = sigJP2) : l.take 4 = sigJP2 := by
  have h2 := congrArg (List.take 4) h
  simpa [List.take_take, sigJP2] using h2

lemma get_format_eq (s : ByteStream) :
    _get_format s =
      ((match shortSig ((s.data.drop s.pos).take 4) with
        | some f => some f
        | none => longSig ((s.data.drop s.pos).take 12)),
       (⟨s.data, 0⟩ : ByteStream)) := by
  simp only [_get_format, ByteStream.read, ByteStream.seek0]
  rw [lookup_magic, lookup_magic]
  have e4 : ((s.data.drop s.pos).take 20).take 4 = (s.data.drop s.pos).take 4 := by
    simp [List.take_take]
  have e12 : ((s.data.drop s.pos).take 20).take 12 = (s.data.drop s.pos).take 12 := by
    simp [List.take_take]
  rw [e4, e12]
  have d1 : sigJP2 ≠ sigJ2K := by decide
  have d2 : sigJP2RFC ≠ sigJ2K := by decide
  have d3 : sigJP2RFC ≠ sigJP2 := by decide
  by_cases h1 : (s.data.drop s.pos).take 4 = sigJ2K
  · simp [shortSig, h1]
  · by_cases h2 : (s.data.drop s.pos).take 4 = sigJP2
    · simp [shortSig, h1, h2, d1]
    · have h3 : (s.data.drop s.pos).take 4 ≠ sigJP2RFC := take_four_ne_RFC _
      have h5 : (s.data.drop s.pos).take 12 ≠ sigJ2K := fun h => h1 (take_twelve_J2K h)
      have h6 : (s.data.drop s.pos).take 12 ≠ sigJP2 := fun h => h2 (take_twelve_JP2 h)
      by_cases h4 : (s.data.drop s.pos).take 12 = sigJP2RFC
      · simp [shortSig, longSig, h1, h2, h3, h4, h5, h6, d2, d3]
      · simp [shortSig, longSig, h1, h2, h3, h4, h5, h6]

lemma resolve_data (f : Option Nat) (s : ByteStream) :
    (resolve_format f s).2.data = s.data := by
  cases f with
  | some f => rfl
  | none => simp [resolve_format, get_format_eq]

lemma get_parameters_run (c : Codec) (i : Input) (f : Option Nat) (s : ByteStream)
    (fmt : Nat) (h1 : normalize i = .ok s) (h2 : (resolve_format f s).1 = some fmt) :
    get_parameters c i f =
      (.ok (c.paramsOf s.data (resolve_format f s).2.pos fmt),
       [⟨.readParameters, fmt, (resolve_format f s).2.pos⟩]) := by
  have hd := resolve_data f s
  unfold get_parameters
  rw [h1]
  rcases hres : resolve_format f s with ⟨f1, s1⟩
  rw [hres] at h2 hd
  simp only at h2 hd
  subst h2
  simp [hres, codecParams, hd]

lemma decode_false_run (c : Codec) (i : Input) (f : Option Nat) (s : ByteStream)
    (fmt : Nat) (h1 : normalize i = .ok s) (h2 : (resolve_format f s).1 = some fmt) :
    decode c i f false =
      (.ok (flatArr (c.decodeBytes s.data (resolve_format f s).2.pos fmt)),
       [⟨.decodeRaw, fmt, (resolve_format f s).2.pos⟩]) := by
  have hd := resolve_data f s
  unfold decode
  rw [h1]
  rcases hres : resolve_format f s with ⟨f1, s1⟩
  rw [hres] at h2 hd
  simp only at h2 hd
  subst h2
  simp [hres, codecDecode, hd]

lemma decode_true_run (c : Codec) (i : Input) (f : Option Nat) (s : ByteStream)
    (fmt : Nat) (h1 : normalize i = .ok s) (h2 : (resolve_format f s).1 = some fmt) :
    decode c i f true =
      (reshapeStep (c.paramsOf s.data s.data.length fmt)
        (flatArr (c.decodeBytes s.data (resolve_format f s).2.pos fmt)),
       [⟨.decodeRaw, fmt, (resolve_format f s).2.pos⟩,
        ⟨.readParameters, fmt, s.data.length⟩]) := by
  have hd := resolve_data f s
  unfold decode
  rw [h1]
  rcases hres : resolve_format f s with ⟨f1, s1⟩
  rw [hres] at h2 hd
  simp only at h2 hd
  subst h2
  have hin : get_parameters c (.obj ⟨true, true, true, ⟨s.data, s.data.length⟩⟩)
      (some fmt)
      = (.ok (c.paramsOf s.data s.data.length fmt),
         [⟨.readParameters, fmt, s.data.length⟩]) :=
    get_parameters_run c _ (some fmt) ⟨s.data, s.data.length⟩ fmt rfl rfl
  cases hr : reshapeStep (c.paramsOf s.data s.data.length fmt)
      (flatArr (c.decodeBytes s.data s1.pos fmt)) with
  | error e => simp [hres, codecDecode, hd, hin, hr]
  | ok a => simp [hres, codecDecode, hd, hin, hr]

lemma unrecognized_run (c : Codec) (i : Input) (f : Option Nat) (s : ByteStream)
    (r : Bool) (h1 : normalize i = .ok s) (h2 : (resolve_format f s).1 = none) :
    decode c i f r = (.error .unrecognizedFormat, []) ∧
      get_parameters c i f = (.error .unrecognizedFormat, []) := by
  rcases hres : resolve_format f s with ⟨f1, s1⟩
  rw [hres] at h2
  simp only at h2
  subst h2
  constructor
  · unfold decode
    rw [h1]
    simp [hres]
  · unfold get_parameters
    rw [h1]
    simp [hres]

lemma badstream_run (c : Codec) (o : StreamObj) (f : Option Nat) (r : Bool)
    (h : ¬(o.hasRead && o.hasTell && o.hasSeek : Bool)) :
    decode c (.obj o) f r = (.error .unsupportedStreamType, []) ∧
      get_parameters c (.obj o) f = (.error .unsupportedStreamType, []) := by
  have hn : normalize (.obj o) = .error .unsupportedStreamType := by
    simp [normalize, h]
  constructor
  · unfold decode
    rw [hn]
  · unfold get_parameters
    rw [hn]

lemma decode_trace_fmt (c : Codec) (i : Input) (f : Option Nat) (r : Bool)
    (ev : CallEvent) (hev : ev ∈ (decode c i f r).2) :
    ∃ s fmt, normalize i = .ok s ∧ (resolve_format f s).1 = some fmt ∧
      ev.fmt = fmt := by
  cases hn : normalize i with
  | error e =>
    unfold decode at hev
    rw [hn] at hev
    simp at hev
  | ok s =>
    cases hf : (resolve_format f s).1 with
    | none =>
      rw [(unrecognized_run c i f s r hn hf).1] at hev
      simp at hev
    | some fmt =>
      refine ⟨s, fmt, rfl, hf, ?_⟩
      cases r with
      | false =>
        rw [decode_false_run c i f s fmt hn hf] at hev
        simp at hev
        rw [hev]
      | true =>
        rw [decode_true_run c i f s fmt hn hf] at hev
        simp at hev
        rcases hev with rfl | rfl <;> rfl

lemma npView_ok {arr : ImageArray} {d : DType} {b : ImageArray}
    (h : npView arr d = .ok b) :
    validDtype d ∧ arr.bytes.length % (d.bits / 8) = 0 ∧
      b = ⟨d, [arr.bytes.length / (d.bits / 8)], arr.bytes⟩ := by
  unfold npView at h
  split at h
  · split at h
    · exact ⟨by assumption, by assumption, (Except.ok.injEq _ _).mp h |>.symm⟩
    · cases h
  · cases h

lemma npReshape_ok {a b : ImageArray} {shape : List Nat}
    (h : npReshape a shape = .ok b) :
    a.shape.prod = shape.prod ∧ b = ⟨a.dtype, shape, a.bytes⟩ := by
  unfold npReshape at h
  split at h
  · exact ⟨by assumption, (Except.ok.injEq _ _).mp h |>.symm⟩
  · cases h

lemma reshapeStep_ok {meta : Params} {arr a : ImageArray}
    (h : reshapeStep meta arr = .ok a) :
    a.dtype = ⟨meta.is_signed, 8 * ((meta.precision + 7) / 8)⟩ ∧
    a.shape = (if meta.nr_components > 1
               then [meta.rows, meta.columns, meta.nr_components]
               else [meta.rows, meta.columns]) ∧
    a.bytes = arr.bytes := by
  simp only [reshapeStep] at h
  cases hv : npView arr ⟨meta.is_signed, 8 * ((meta.precision + 7) / 8)⟩ with
  | error e => rw [hv] at h; cases h
  | ok arr2 =>
    rw [hv] at h
    obtain ⟨_, _, harr2⟩ := npView_ok hv
    obtain ⟨_, hb⟩ := npReshape_ok h
    subst harr2
    subst hb
    exact ⟨rfl, rfl, rfl⟩

/-- C1 counterexample: with a parameter record having `nr_components = 0` and
precision 8 (within the claim's 1..32 range), `decode` with reshape succeeds
and returns an array of shape `[rows, columns]` — not the
`[rows, columns, nr_components]` the claim demands for every
`nr_components ≠ 1`. -/
theorem claim_C1_counterexample :
    (decode zeroCompCodec (.bytes sigJ2K) none true).1 =
      .ok ⟨⟨false, 8⟩, [metaN0.rows, metaN0.columns], [7, 9]⟩ ∧
    metaN0.nr_components ≠ 1 ∧
    1 ≤ metaN0.precision ∧ metaN0.precision ≤ 32 ∧
    ([metaN0.rows, metaN0.columns] : List Nat) ≠
      [metaN0.rows, metaN0.columns, metaN0.nr_components] :=
  ⟨rfl, by decide, by decide, by decide, by decide⟩

/-- C1 amended: whenever `decode` with reshape requested returns an image
array and the parameter record it read has precision in 1..32, the array's
element type is the unsigned integer of width `8 * ceil(precision/8)` bits
when `is_signed` is false and the signed integer of that width when it is
true, and its shape is `[rows, columns, nr_components]` when
`nr_components > 1`, else `[rows, columns]` (so `nr_components = 0` also
yields `[rows, columns]`). -/
theorem claim_C1_dtype_and_shape (c : Codec) (i : Input) (f : Option Nat)
    (s : ByteStream) (fmt : Nat) (a : ImageArray) (t : List CallEvent)
    (h1 : normalize i = .ok s) (h2 : (resolve_format f s).1 = some fmt)
    (hprec : 1 ≤ (c.paramsOf s.data s.data.length fmt).precision ∧
      (c.paramsOf s.data s.data.length fmt).precision ≤ 32)
    (hok : decode c i f true = (.ok a, t)) :
    a.dtype = ⟨(c.paramsOf s.data s.data.length fmt).is_signed,
      8 * (((c.paramsOf s.data s.data.length fmt).precision + 7) / 8)⟩ ∧
    a.shape = (if (c.paramsOf s.data s.data.length fmt).nr_components > 1
      then [(c.paramsOf s.data s.data.length fmt).rows,
            (c.paramsOf s.data s.data.length fmt).columns,
            (c.paramsOf s.data s.data.length fmt).nr_components]
      else [(c.paramsOf s.data s.data.length fmt).rows,
            (c.paramsOf s.data s.data.length fmt).columns]) := by
  rw [decode_true_run c i f s fmt h1 h2] at hok
  have hstep : reshapeStep (c.paramsOf s.data s.data.length fmt)
      (flatArr (c.decodeBytes s.data (resolve_format f s).2.pos fmt)) = .ok a := by
    have := congrArg Prod.fst hok
    simpa using this
  obtain ⟨hd, hs, _⟩ := reshapeStep_ok hstep
  exact ⟨hd, hs⟩

/-- C1 amended witness: a concrete run returning a 2×3 uint8 array. -/
theorem claim_C1_witness :
    (⟨⟨false, 8⟩, [2, 3], [1, 2, 3, 4, 5, 6]⟩ : ImageArray).dtype =
      ⟨(sampleCodec.paramsOf sigJ2K sigJ2K.length 0).is_signed,
        8 * (((sampleCodec.paramsOf sigJ2K sigJ2K.length 0).precision + 7) / 8)⟩ ∧
    (⟨⟨false, 8⟩, [2, 3], [1, 2, 3, 4, 5, 6]⟩ : ImageArray).shape =
      (if (sampleCodec.paramsOf sigJ2K sigJ2K.length 0).nr_components > 1
       then [(sampleCodec.paramsOf sigJ2K sigJ2K.length 0).rows,
             (sampleCodec.paramsOf sigJ2K sigJ2K.length 0).columns,
             (sampleCodec.paramsOf sigJ2K sigJ2K.length 0).nr_components]
       else [(sampleCodec.paramsOf sigJ2K sigJ2K.length 0).rows,
             (sampleCodec.paramsOf sigJ2K sigJ2K.length 0).columns]) :=
  claim_C1_dtype_and_shape sampleCodec (.bytes sigJ2K) none ⟨sigJ2K, 0⟩ 0
    ⟨⟨false, 8⟩, [2, 3], [1, 2, 3, 4, 5, 6]⟩
    [⟨.decodeRaw, 0, 0⟩, ⟨.readParameters, 0, 4⟩]
    rfl (by decide) (by decide) rfl

/-- C2 counterexample: with a codec whose parameter reader is
position-sensitive — which the spec allows, fixing the codec's behaviour
only at position 0 — `getParameters` on the input reports an 8-bit record,
`decode(reshape=false)` returns the 1-byte flat buffer, and reinterpreting
that buffer per the reshape step succeeds with a 1×1 uint8 array; but
`decode(reshape=true)` fails with a buffer-size mismatch, because its
internal parameter read happens at the end-of-data position (no seek
intervenes) and the codec reports 16 bits there.  The two sides differ,
refuting the round trip as stated. -/
theorem claim_C2_counterexample :
    (get_parameters posCodec (.bytes sigJ2K) none).1 =
      .ok ⟨1, 1, "monochrome", 1, 8, false⟩ ∧
    (decode posCodec (.bytes sigJ2K) none false).1 = .ok (flatArr [1]) ∧
    reshapeStep ⟨1, 1, "monochrome", 1, 8, false⟩ (flatArr [1]) =
      .ok ⟨⟨false, 8⟩, [1, 1], [1]⟩ ∧
    (decode posCodec (.bytes sigJ2K) none true).1 =
      .error .bufferSizeMismatch ∧
    (Except.error Err.bufferSizeMismatch : Except Err ImageArray) ≠
      .ok ⟨⟨false, 8⟩, [1, 1], [1]⟩ :=
  ⟨rfl, rfl, rfl, rfl, fun h => Except.noConfusion h⟩

/-- C2 amended: provided the codec's parameter reader returns the same record
at the end-of-data position (where `decode`'s internal read happens, with no
seek intervening) as at the position where format resolution left the
stream, `getParameters` composed with `decode(reshape=false)` and the
view/reshape reinterpretation yields exactly the array `decode(reshape=true)`
returns; and `decode(reshape=false)` unconditionally returns the decoded
buffer as a flat unsigned-byte (uint8) sequence unmodified. -/
theorem claim_C2_roundtrip (c : Codec) (i : Input) (f : Option Nat)
    (s : ByteStream) (fmt : Nat)
    (h1 : normalize i = .ok s) (h2 : (resolve_format f s).1 = some fmt)
    (hpos : c.paramsOf s.data s.data.length fmt =
            c.paramsOf s.data (resolve_format f s).2.pos fmt) :
    (get_parameters c i f).1 =
      .ok (c.paramsOf s.data (resolve_format f s).2.pos fmt) ∧
    (decode c i f false).1 =
      .ok (flatArr (c.decodeBytes s.data (resolve_format f s).2.pos fmt)) ∧
    (decode c i f true).1 =
      reshapeStep (c.paramsOf s.data (resolve_format f s).2.pos fmt)
        (flatArr (c.decodeBytes s.data (resolve_format f s).2.pos fmt)) := by
  refine ⟨?_, ?_, ?_⟩
  · rw [get_parameters_run c i f s fmt h1 h2]
  · rw [decode_false_run c i f s fmt h1 h2]
  · rw [decode_true_run c i f s fmt h1 h2, hpos]

/-- C2 amended witness: the round trip evaluated on a concrete codestream
input with a position-insensitive codec. -/
theorem claim_C2_witness :
    (get_parameters sampleCodec (.bytes sigJ2K) none).1 =
      .ok (sampleCodec.paramsOf sigJ2K 0 0) ∧
    (decode sampleCodec (.bytes sigJ2K) none false).1 =
      .ok (flatArr (sampleCodec.decodeBytes sigJ2K 0 0)) ∧
    (decode sampleCodec (.bytes sigJ2K) none true).1 =
      reshapeStep (sampleCodec.paramsOf sigJ2K 0 0)
        (flatArr (sampleCodec.decodeBytes sigJ2K 0 0)) :=
  claim_C2_roundtrip sampleCodec (.bytes sigJ2K) none ⟨sigJ2K, 0⟩ 0
    rfl (by decide) rfl

/-- C3: the sniffer matches the first 4 bytes against the short signature
table (`FF 4F FF 51 ↦ 0`, `0D 0A 87 0A ↦ 2`); only if that fails does it
match the first 12 bytes against the longer table
(`00 00 00 0C 6A 50 20 20 0D 0A 87 0A ↦ 2`); the first match wins. -/
theorem claim_C3_table_order (b : List Nat) :
    (_get_format ⟨b, 0⟩).1 =
      match shortSig (b.take 4) with
      | some f => some f
      | none => longSig (b.take 12) := by
  rw [get_format_eq]
  simp

/-- C4: whenever neither the 4-byte nor the 12-byte signature table matches,
sniffing fails with the unrecognized-format error, and `decode` and
`get_parameters` with no explicit format return that error and never reach
the codec. -/
theorem claim_C4_unrecognized (b : List Nat) (c : Codec) (r : Bool)
    (h1 : b.take 4 ≠ sigJ2K) (h2 : b.take 4 ≠ sigJP2)
    (h3 : b.take 12 ≠ sigJP2RFC) :
    (_get_format ⟨b, 0⟩).1 = none ∧
    decode c (.bytes b) none r = (.error .unrecognizedFormat, []) ∧
    get_parameters c (.bytes b) none = (.error .unrecognizedFormat, []) := by
  have hfmt : (_get_format ⟨b, 0⟩).1 = none := by
    rw [get_format_eq]
    simp [shortSig, longSig, h1, h2, h3]
  have := unrecognized_run c (.bytes b) none ⟨b, 0⟩ r rfl hfmt
  exact ⟨hfmt, this.1, this.2⟩

/-- C4 witness: evaluated on the unrecognized prefix `01 02 03`. -/
theorem claim_C4_witness :
    (_get_format ⟨[1, 2, 3], 0⟩).1 = none ∧
    decode sampleCodec (.bytes [1, 2, 3]) none true =
      (.error .unrecognizedFormat, []) ∧
    get_parameters sampleCodec (.bytes [1, 2, 3]) none =
      (.error .unrecognizedFormat, []) :=
  claim_C4_unrecognized [1, 2, 3] sampleCodec true (by decide) (by decide) (by decide)

/-- C5: after any sniff the stream position is back at 0, whether the sniff
succeeded or failed; in particular a stream starting with the codestream
magic yields format 0 with the position left at 0. -/
theorem claim_C5_position_restored (s : ByteStream) :
    (_get_format s).2.pos = 0 ∧
    (s.pos = 0 → s.data.take 4 = sigJ2K → (_get_format s).1 = some 0) := by
  constructor
  · rw [get_format_eq]
  · intro hp h4
    rw [get_format_eq]
    simp [hp, h4, shortSig]

/-- C5 witness: evaluated on a pure codestream-magic stream. -/
theorem claim_C5_witness :
    (_get_format ⟨sigJ2K, 0⟩).2.pos = 0 ∧ (_get_format ⟨sigJ2K, 0⟩).1 = some 0 :=
  ⟨(claim_C5_position_restored ⟨sigJ2K, 0⟩).1,
   (claim_C5_position_restored ⟨sigJ2K, 0⟩).2 rfl (by decide)⟩

/-- C6 counterexample: on a concrete codestream input with format
auto-detected, `decode` with reshape makes its internal parameter-read codec
call at position 4 (the end of the 4-byte stream), not at position 0, so not
every codec invocation of the pipeline occurs with the stream at position 0. -/
theorem claim_C6_counterexample :
    (decode sampleCodec (.bytes sigJ2K) none true).2 =
      [⟨.decodeRaw, 0, 0⟩, ⟨.readParameters, 0, 4⟩] ∧ (4 : Nat) ≠ 0 :=
  ⟨rfl, by decide⟩

/-- C6 amended: the first codec call is made at position 0 whenever the
format was auto-detected (the sniffer restores the position), but the
internal parameter-read call that `decode` with reshape performs is made at
the position where the raw decode left the stream — the end of the data —
since `decode` passes the format explicitly and `get_parameters` only seeks
while sniffing. -/
theorem claim_C6_amended (c : Codec) (i : Input) (f : Option Nat)
    (s : ByteStream) (fmt : Nat)
    (h1 : normalize i = .ok s) (h2 : (resolve_format f s).1 = some fmt) :
    (decode c i f true).2 =
      [⟨.decodeRaw, fmt, (resolve_format f s).2.pos⟩,
       ⟨.readParameters, fmt, s.data.length⟩] ∧
    (get_parameters c i f).2 =
      [⟨.readParameters, fmt, (resolve_format f s).2.pos⟩] ∧
    (f = none → (resolve_format f s).2.pos = 0) := by
  refine ⟨?_, ?_, ?_⟩
  · rw [decode_true_run c i f s fmt h1 h2]
  · rw [get_parameters_run c i f s fmt h1 h2]
  · rintro rfl
    simp [resolve_format, get_format_eq]

/-- C6 amended witness: the concrete traces on a codestream input. -/
theorem claim_C6_witness :
    (decode sampleCodec (.bytes sigJP2) none true).2 =
      [⟨.decodeRaw, 2, (resolve_format none ⟨sigJP2, 0⟩).2.pos⟩,
       ⟨.readParameters, 2, sigJP2.length⟩] ∧
    (get_parameters sampleCodec (.bytes sigJP2) none).2 =
      [⟨.readParameters, 2, (resolve_format none ⟨sigJP2, 0⟩).2.pos⟩] ∧
    (resolve_format (none : Option Nat) ⟨sigJP2, 0⟩).2.pos = 0 := by
  have h := claim_C6_amended sampleCodec (.bytes sigJP2) none ⟨sigJP2, 0⟩ 2
    rfl (by decide)
  exact ⟨h.1, h.2.1, h.2.2 rfl⟩

/-- C7 counterexample: with `precision = 20` (so `bpp = 3`) and a 5-byte
buffer, the reshape step fails with the invalid-dtype error (numpy has no
24-bit integer type), not with `BufferSizeMismatch` as the claim requires;
and with `nr_components = 0`, a 2-byte buffer whose element count 2 differs
from `rows*columns*nr_components = 0` is reshaped successfully to
`[rows, columns]` instead of failing with `ShapeMismatch`. -/
theorem claim_C7_counterexample :
    ((5 : Nat) % ((metaP20.precision + 7) / 8) ≠ 0 ∧
     reshapeStep metaP20 (flatArr [1, 2, 3, 4, 5]) = .error .invalidDtype ∧
     Err.invalidDtype ≠ Err.bufferSizeMismatch) ∧
    ((2 : Nat) ≠ metaN0.rows * metaN0.columns * metaN0.nr_components ∧
     reshapeStep metaN0 (flatArr [7, 9]) =
       .ok ⟨⟨false, 8⟩, [metaN0.rows, metaN0.columns], [7, 9]⟩) :=
  ⟨⟨by decide, rfl, by decide⟩, ⟨by decide, rfl⟩⟩

/-- C7 amended: when the computed element width is one numpy understands
(precision in 1..16 or 25..32), a buffer whose byte length is not a multiple
of `bpp = ceil(precision/8)` fails with `BufferSizeMismatch`; one whose
element count differs from the product of the target shape
(`rows*columns` when `nr_components ≤ 1`, else
`rows*columns*nr_components`) fails with `ShapeMismatch`; and any returned
array carries the buffer unmodified — never truncated or padded. -/
theorem claim_C7_amended (meta : Params) (raw : List Nat)
    (hw : (1 ≤ meta.precision ∧ meta.precision ≤ 16) ∨
          (25 ≤ meta.precision ∧ meta.precision ≤ 32)) :
    (raw.length % ((meta.precision + 7) / 8) ≠ 0 →
      reshapeStep meta (flatArr raw) = .error .bufferSizeMismatch) ∧
    (raw.length % ((meta.precision + 7) / 8) = 0 →
      raw.length / ((meta.precision + 7) / 8) ≠
        (if meta.nr_components > 1
         then [meta.rows, meta.columns, meta.nr_components]
         else [meta.rows, meta.columns]).prod →
      reshapeStep meta (flatArr raw) = .error .shapeMismatch) ∧
    (∀ a, reshapeStep meta (flatArr raw) = .ok a → a.bytes = raw) := by
  have hbpp : (meta.precision + 7) / 8 = 1 ∨ (meta.precision + 7) / 8 = 2 ∨
      (meta.precision + 7) / 8 = 4 := by omega
  have hv : validDtype ⟨meta.is_signed, 8 * ((meta.precision + 7) / 8)⟩ := by
    rcases hbpp with h | h | h <;> rw [h] <;> simp [validDtype]
  have hdiv8 : 8 * ((meta.precision + 7) / 8) / 8 = (meta.precision + 7) / 8 :=
    Nat.mul_div_cancel_left _ (by norm_num)
  refine ⟨?_, ?_, ?_⟩
  · intro hm
    simp only [reshapeStep, npView, flatArr]
    rw [if_pos hv]
    simp [hdiv8, hm]
  · intro hm hcount
    simp only [reshapeStep, npView, flatArr]
    rw [if_pos hv]
    simp only [hdiv8]
    rw [if_pos hm]
    simp only [npReshape]
    rw [if_neg (by simpa using hcount)]
  · intro a ha
    exact (reshapeStep_ok ha).2.2

/-- C7 amended witness: a 3-byte buffer with a 16-bit dtype fails with
`BufferSizeMismatch`. -/
theorem claim_C7_witness :
    reshapeStep metaP16 (flatArr [1, 2, 3]) = .error .bufferSizeMismatch :=
  (claim_C7_amended metaP16 [1, 2, 3] (by decide)).1 (by decide)

/-- C8: a non-bytes input lacking any of the read/tell/seek capabilities makes
both `decode` and `get_parameters` fail with the unsupported-stream-type
error, with an empty codec-call trace: the failure happens before any call
into the external codec. -/
theorem claim_C8_unsupported_stream (c : Codec) (o : StreamObj) (f : Option Nat)
    (r : Bool)
    (h : o.hasRead = false ∨ o.hasTell = false ∨ o.hasSeek = false) :
    decode c (.obj o) f r = (.error .unsupportedStreamType, []) ∧
    get_parameters c (.obj o) f = (.error .unsupportedStreamType, []) := by
  apply badstream_run
  rcases h with h | h | h <;> simp [h]

/-- C8 witness: an object with no `read` method. -/
theorem claim_C8_witness :
    decode sampleCodec (.obj ⟨false, true, true, ⟨sigJ2K, 0⟩⟩) none true =
      (.error .unsupportedStreamType, []) ∧
    get_parameters sampleCodec (.obj ⟨false, true, true, ⟨sigJ2K, 0⟩⟩) none =
      (.error .unsupportedStreamType, []) :=
  claim_C8_unsupported_stream sampleCodec ⟨false, true, true, ⟨sigJ2K, 0⟩⟩
    none true (Or.inl rfl)

/-- C9: on any dot-delimited version string the external codec reports whose
three fields are decimal numerals — the spec fixes the codec's version string
to the `major.minor.patch` form — `get_openjpeg_version` returns exactly the
three parsed integers. -/
theorem claim_C9_version (v a b c : List Char) (x y z : Nat)
    (hsplit : splitOnChar '.' v = [a, b, c])
    (ha : parseNat a = some x) (hb : parseNat b = some y)
    (hc : parseNat c = some z) :
    get_openjpeg_version v = some [x, y, z] := by
  unfold get_openjpeg_version
  rw [hsplit]
  simp [parseFields, ha, hb, hc]

/-- C9 witness: on `"2.5.0"` the result is `(2, 5, 0)`. -/
theorem claim_C9_witness :
    get_openjpeg_version ['2', '.', '5', '.', '0'] = some [2, 5, 0] :=
  claim_C9_version ['2', '.', '5', '.', '0'] ['2'] ['5'] ['0'] 2 5 0
    (by decide) rfl rfl rfl

/-- C10: the sniffer only ever returns 0 (codestream), 2 (JP2) or fails —
never 1 (JPT); hence auto-detection never reaches the codec with format 1,
and a JPT stream is decoded only when the caller passes format 1
explicitly, in which case every codec call carries format 1. -/
theorem claim_C10_no_jpt_sniff (b : List Nat) :
    ((_get_format ⟨b, 0⟩).1 = some 0 ∨ (_get_format ⟨b, 0⟩).1 = some 2 ∨
      (_get_format ⟨b, 0⟩).1 = none) ∧
    (∀ (c : Codec) (i : Input) (r : Bool) (ev : CallEvent),
        ev ∈ (decode c i none r).2 → ev.fmt ≠ 1) ∧
    (∀ (c : Codec) (i : Input) (r : Bool) (ev : CallEvent),
        ev ∈ (decode c i (some 1) r).2 → ev.fmt = 1) := by
  refine ⟨?_, ?_, ?_⟩
  · rw [get_format_eq]
    unfold shortSig longSig
    split_ifs <;> simp
  · intro c i r ev hev
    obtain ⟨s, fmt, hn, hf, hfmt⟩ := decode_trace_fmt c i none r ev hev
    have hcases : (_get_format s).1 = some 0 ∨ (_get_format s).1 = some 2 ∨
        (_get_format s).1 = none := by
      rw [get_format_eq]
      unfold shortSig longSig
      split_ifs <;> simp
    have hres : (resolve_format none s).1 = (_get_format s).1 := rfl
    rw [hres] at hf
    rw [hfmt]
    rcases hcases with h | h | h <;> rw [h] at hf <;>
      first
        | (injection hf with hf; omega)
        | cases hf
  · intro c i r ev hev
    obtain ⟨s, fmt, hn, hf, hfmt⟩ := decode_trace_fmt c i (some 1) r ev hev
    have : some (1 : Nat) = some fmt := hf
    injection this with h
    rw [hfmt, ← h]

/-- C10 witness: evaluated on the codestream magic and a concrete trace
element of an auto-detected decode. -/
theorem claim_C10_witness :
    ((_get_format ⟨sigJ2K, 0⟩).1 = some 0 ∨ (_get_format ⟨sigJ2K, 0⟩).1 = some 2 ∨
      (_get_format ⟨sigJ2K, 0⟩).1 = none) ∧
    ({ kind := .decodeRaw, fmt := 0, pos := 0 } : CallEvent).fmt ≠ 1 :=
  ⟨(claim_C10_no_jpt_sniff sigJ2K).1,
   (claim_C10_no_jpt_sniff sigJ2K).2.1 sampleCodec (.bytes sigJ2K) false
     ⟨.decodeRaw, 0, 0⟩ (by decide)⟩

end OpenJPEG
